import Mathlib

/-!
Verification of the redshift-rs core against its specification.

The Rust sources are embedded shallowly:

* `f64` values are modelled as exact rationals (`ℚ`): every arithmetic
  operation the embedded code performs (`+`, `-`, `*`, `/`, `min`, `max`,
  comparisons, casts to integer types) is given its exact real meaning.
* `i32`/`i16` are modelled as `ℤ` and `u16`/`u32` as `ℕ`; the saturating
  float-to-integer `as` casts of Rust are modelled explicitly
  (`i32cast`, `u16cast`); no reachable computation wraps a machine integer.
* fallible backend calls are modelled by explicit outcome data
  (see the control-loop section).

Each embedded definition is annotated with the source file and lines
it was translated from.
-/

namespace RedshiftRS

/-- Truncation of a rational toward zero, the rounding used by Rust's
float-to-integer `as` casts. -/
def ratTrunc (q : ℚ) : ℤ := if 0 ≤ q then ⌊q⌋ else ⌈q⌉

/-- Rust `as i32` on an `f64`: truncate toward zero, saturating at the
`i32` bounds. -/
def i32cast (q : ℚ) : ℤ := max (-2147483648) (min 2147483647 (ratTrunc q))

/-- Rust `as u16` on an `f64`: truncate toward zero, saturating at the
`u16` bounds. -/
def u16cast (q : ℚ) : ℕ := (max 0 (min 65535 (ratTrunc q))).toNat

/-- src/transition.rs lines 28-32: a color setting.
`gamma` is the `[f64; 3]` array, modelled as a triple. -/
structure ColorSetting where
  temp : ℤ
  gamma : ℚ × ℚ × ℚ
  brightness : ℚ
deriving DecidableEq

/-- src/transition.rs lines 35-43, `ColorSetting::new`: the sentinel
setting. In Rust the gamma and brightness fields are `NaN`; `NaN` has no
rational counterpart, and the program never reads these fields (they are
overwritten in `run` before use, and the sentinel `prev_color_setting`
of the loop is modelled separately as `Option.none`), so they are
modelled as `0` here. The `temp = -1` sentinel is kept. -/
def ColorSetting.mkNew : ColorSetting :=
  { temp := -1, gamma := (0, 0, 0), brightness := 0 }

/-- src/transition.rs lines 4-10: periods of day. -/
inductive Period where
  | none
  | day
  | night
  | transition (t : ℚ)
deriving DecidableEq

/-- src/transition.rs lines 51-61: the transition scheme.
`short_trans_delta : i16` is modelled as `ℤ`, `short_trans_len : u16`
as `ℕ`. -/
@[ext]
structure TransitionScheme where
  high : ℚ
  low : ℚ
  day : ColorSetting
  night : ColorSetting
  short_trans_delta : ℤ
  short_trans_len : ℕ
  adjustment_alpha : ℚ
deriving DecidableEq

namespace TransitionScheme

/-- src/transition.rs lines 64-75, `TransitionScheme::new`;
`solar::CIVIL_TWILIGHT_ELEV = -6.0` (src/solar.rs line 20). -/
def new : TransitionScheme :=
  { high := 3
    low := -6
    day := ColorSetting.mkNew
    night := ColorSetting.mkNew
    short_trans_delta := -1
    short_trans_len := 10
    adjustment_alpha := 1 }

/-- src/transition.rs line 84-85: the clamped interpolation coefficient
`al.min(1.0).max(0.0)` of `interpolate_color_settings`. -/
def clamped_alpha (s : TransitionScheme) (elevation : ℚ) : ℚ :=
  max (min ((s.low - elevation) / (s.low - s.high)) 1) 0

/-- src/transition.rs lines 80-96, `interpolate_color_settings`. -/
def interpolate_color_settings (s : TransitionScheme) (elevation : ℚ) :
    ColorSetting :=
  let alpha := s.clamped_alpha elevation
  { temp := i32cast ((1 - alpha) * (s.night.temp : ℚ) + alpha * (s.day.temp : ℚ))
    brightness := (1 - alpha) * s.night.brightness + alpha * s.day.brightness
    gamma := ((1 - alpha) * s.night.gamma.1 + alpha * s.day.gamma.1,
              (1 - alpha) * s.night.gamma.2.1 + alpha * s.day.gamma.2.1,
              (1 - alpha) * s.night.gamma.2.2 + alpha * s.day.gamma.2.2) }

/-- src/transition.rs lines 109-118, `get_period`. -/
def get_period (s : TransitionScheme) (elevation : ℚ) : Period :=
  if elevation < s.low then Period.night
  else if elevation > s.high then Period.day
  else Period.transition ((s.low - elevation) / (s.low - s.high))

/-- src/transition.rs lines 120-122, `short_transition`:
true iff `short_trans_delta != 0`. -/
def short_transition (s : TransitionScheme) : Prop :=
  s.short_trans_delta ≠ 0

instance (s : TransitionScheme) : Decidable s.short_transition :=
  inferInstanceAs (Decidable (s.short_trans_delta ≠ 0))

/-- src/transition.rs lines 124-134, `adjust_transition_alpha`:
`adjustment_alpha += delta * 0.1 / len`, clear `delta` when the result
leaves the open interval (0, 1), then clamp with `.max(0.0).min(1.0)`. -/
def adjust_transition_alpha (s : TransitionScheme) : TransitionScheme :=
  let a := s.adjustment_alpha +
    (s.short_trans_delta : ℚ) * (1 / 10) / (s.short_trans_len : ℚ)
  { s with
    short_trans_delta := if a ≤ 0 ∨ 1 ≤ a then 0 else s.short_trans_delta
    adjustment_alpha := min (max a 0) 1 }

end TransitionScheme

/-!
Solar position (src/solar.rs). The `f64` computations of this module
use transcendental operations; they are embedded over an arbitrary field
`α` together with a record of the primitive operations the Rust code
calls (`sin`, `cos`, `tan`, `asin`, `f64::round`, the `%` remainder and
`powf`), so that the source and the spec formula are compared over the
very same primitives. `to_radians`/`to_degrees` are exactly Rust's
multiplications by `pi / 180` and `180 / pi`.
-/

/-- The primitive `f64` operations used by src/solar.rs. -/
structure FloatOps (α : Type) where
  pi : α
  sin : α → α
  cos : α → α
  tan : α → α
  asin : α → α
  round : α → α
  rem : α → α → α
  powf : α → α → α

/-- src/location/mod.rs lines 16-19: latitude and longitude in degrees. -/
structure Location (α : Type) where
  lat : α
  lon : α

namespace Solar

variable {α : Type} [Field α] (ops : FloatOps α)

/-- Rust `f64::to_radians`: multiplication by `pi / 180`. -/
def to_radians (x : α) : α := x * (ops.pi / 180)

/-- Rust `f64::to_degrees`: multiplication by `180 / pi`. -/
def to_degrees (x : α) : α := x * (180 / ops.pi)

/-- src/solar.rs lines 64-66, `JulianDay::from_epoch`. -/
def from_epoch (t : α) : α := t / 86400 + 2440587.5

/-- src/solar.rs lines 72-74, `JulianDay::to_julian_cent`. -/
def to_julian_cent (jd : α) : α := (jd - 2451545.0) / 36525.0

/-- src/solar.rs lines 97-99, `sun_geom_mean_lon`. -/
def sun_geom_mean_lon (t : α) : α :=
  to_radians ops (ops.rem (280.46646 + t * (36000.76983 + t * 0.0003032)) 360.0)

/-- src/solar.rs lines 101-103, `sun_geom_mean_anomaly`. -/
def sun_geom_mean_anomaly (t : α) : α :=
  to_radians ops (357.52911 + t * (35999.05029 - t * 0.0001537))

/-- src/solar.rs lines 105-107, `earth_orbit_eccentricity`. -/
def earth_orbit_eccentricity (t : α) : α :=
  0.016708634 - t * (0.000042037 + t * 0.0000001267)

/-- src/solar.rs lines 109-115, `sun_equation_of_center`. -/
def sun_equation_of_center (t : α) : α :=
  let m := sun_geom_mean_anomaly ops t
  let c := ops.sin m * (1.914602 - t * (0.004817 + 0.000014 * t))
    + ops.sin (2.0 * m) * (0.019993 - 0.000101 * t)
    + ops.sin (3.0 * m) * 0.000289
  to_radians ops c

/-- src/solar.rs lines 117-119, `sun_true_lon`. -/
def sun_true_lon (t : α) : α :=
  sun_geom_mean_lon ops t + sun_equation_of_center ops t

/-- src/solar.rs lines 122-125, `sun_apparent_lon`. -/
def sun_apparent_lon (t : α) : α :=
  let o := sun_true_lon ops t
  to_radians ops (to_degrees ops o - 0.00569 -
    0.00478 * ops.sin (to_radians ops (125.04 - 1934.136 * t)))

/-- src/solar.rs lines 127-130, `mean_ecliptic_obliquity`. -/
def mean_ecliptic_obliquity (t : α) : α :=
  let sec := 21.448 - t * (46.815 + t * (0.00059 - t * 0.001813))
  to_radians ops (23.0 + (26.0 + sec / 60.0) / 60.0)

/-- src/solar.rs lines 132-136, `obliquity_corr`. -/
def obliquity_corr (t : α) : α :=
  let e0 := mean_ecliptic_obliquity ops t
  let omega := 125.04 - t * 1934.136
  to_radians ops (to_degrees ops e0 + 0.00256 * ops.cos (to_radians ops omega))

/-- src/solar.rs lines 138-142, `solar_declination`. -/
def solar_declination (t : α) : α :=
  let e := obliquity_corr ops t
  let lambda := sun_apparent_lon ops t
  ops.asin (ops.sin e * ops.sin lambda)

/-- src/solar.rs lines 145-157, `equation_of_time`. -/
def equation_of_time (t : α) : α :=
  let l0 := sun_geom_mean_lon ops t
  let e := earth_orbit_eccentricity (α := α) t
  let m := sun_geom_mean_anomaly ops t
  let y := ops.powf (ops.tan (obliquity_corr ops t / 2.0)) 2.0
  let eq_time := y * ops.sin (2.0 * l0)
    - 2.0 * e * ops.sin m
    + 4.0 * e * y * ops.sin m * ops.cos (2.0 * l0)
    - 0.5 * y * y * ops.sin (4.0 * l0)
    - 1.25 * e * e * ops.sin (2.0 * m)
  4.0 * to_degrees ops eq_time

/-- src/solar.rs lines 171-174, `elevation_from_hour_angle`. -/
def elevation_from_hour_angle (lat decl ha : α) : α :=
  ops.asin (ops.cos ha * ops.cos (to_radians ops lat) * ops.cos decl
    + ops.sin (to_radians ops lat) * ops.sin decl)

/-- src/solar.rs lines 176-184, `elevation_from_time`. -/
def elevation_from_time (jd : α) (loc : Location α) : α :=
  let t := to_julian_cent jd
  let offset := (jd - ops.round jd - 0.5) * 1440.0
  let eq_time := equation_of_time ops t
  let ha := to_radians ops ((720.0 - offset - eq_time) / 4.0 - loc.lon)
  let decl := solar_declination ops t
  elevation_from_hour_angle ops loc.lat decl ha

/-- src/solar.rs lines 187-190, `elevation`: the solar angular elevation
at the given epoch time and location, in degrees. -/
def elevation (t : α) (loc : Location α) : α :=
  let jd := from_epoch t
  to_degrees ops (elevation_from_time ops jd loc)

/-- The elevation formula exactly as the specification words it:
Julian Day `JD = t/86400 + 2440587.5`, Julian centuries
`T = (JD - 2451545)/36525`, true-solar-time offset
`offset = (JD - round(JD) - 0.5) * 1440` minutes, hour angle
`HA = ((720 - offset - eqTime)/4 - lon)` degrees converted to radians,
and elevation `asin(cos(HA)·cos(lat)·cos(decl) + sin(lat)·sin(decl))`
converted to degrees, where `decl` and `eqTime` are the NOAA closed-form
expressions of the source in `T` and the latitude is converted to
radians before the trigonometry is applied. -/
def elevation_spec (t : α) (loc : Location α) : α :=
  let jd := t / 86400 + 2440587.5
  let cent := (jd - 2451545.0) / 36525.0
  let offset := (jd - ops.round jd - 0.5) * 1440.0
  let eqTime := equation_of_time ops cent
  let decl := solar_declination ops cent
  let ha := to_radians ops ((720.0 - offset - eqTime) / 4.0 - loc.lon)
  to_degrees ops (ops.asin (ops.cos ha * ops.cos (to_radians ops loc.lat) *
    ops.cos decl + ops.sin (to_radians ops loc.lat) * ops.sin decl))

end Solar

/-- A concrete interpretation of the primitive `f64` operations over
`ℚ`, used only to instantiate the generic solar theorems. -/
def qOps : FloatOps ℚ :=
  { pi := 3, sin := id, cos := id, tan := id, asin := id, round := id,
    rem := fun x _ => x, powf := fun x _ => x }

/-!
RandR gamma backend (src/gamma_randr.rs). The hardware is modelled as a
map from CRTC id to its current gamma ramp triple; a write to a CRTC
updates that map. `set_crtc_temperature` and `restore` act on the
hardware through explicit writes, so that the round-trip behaviour of
the captured snapshots can be stated. The X protocol transport and its
errors are outside the embedded computation: the embedding gives the
ramp data each successful write carries.
-/

/-- A gamma ramp triple (red, green, blue); entries are `u16` values. -/
abbrev Ramps := List ℕ × List ℕ × List ℕ

/-- src/gamma_randr.rs lines 65-69: a captured CRTC record. -/
structure Crtc where
  id : ℕ
  ramp_size : ℕ
  saved_ramps : Ramps
deriving DecidableEq

/-- Modelled from the spec: `colorramp_fill` lives in src/colorramp.rs,
which is not among the sources; per the spec it looks up an (R,G,B)
multiplier triple for `setting.temp` in a fixed blackbody table and sets
each entry to `base * multiplier[channel] * setting.gamma[channel] *
setting.brightness`, clamped to the representable range 0-65535. The
table lookup is abstracted as the parameter `whitePoint`. -/
def colorramp_fill (whitePoint : ℤ → ℚ × ℚ × ℚ) (setting : ColorSetting)
    (r g b : List ℕ) : Ramps :=
  let m := whitePoint setting.temp
  (r.map fun v => u16cast ((v : ℚ) * m.1 * setting.gamma.1 * setting.brightness),
   g.map fun v => u16cast ((v : ℚ) * m.2.1 * setting.gamma.2.1 * setting.brightness),
   b.map fun v => u16cast ((v : ℚ) * m.2.2 * setting.gamma.2.2 * setting.brightness))

/-- src/gamma_randr.rs lines 117-123: the linear ramp value
`((i as f64 / ramp_size) * (u16::max_value() as f64 + 1.0)) as u16`. -/
def linear_ramp_value (ramp_size i : ℕ) : ℕ :=
  u16cast ((i : ℚ) / (ramp_size : ℚ) * 65536)

/-- src/gamma_randr.rs lines 109-138, `set_crtc_temperature`: clone the
saved ramps, then overwrite every entry (`for i in 0 .. r.len()`) with
the linear ramp value, then run `colorramp_fill`; the result is the ramp
triple written to the CRTC. -/
def set_crtc_temperature (whitePoint : ℤ → ℚ × ℚ × ℚ)
    (setting : ColorSetting) (crtc : Crtc) : Ramps :=
  let r := crtc.saved_ramps.1.mapIdx fun i _ => linear_ramp_value crtc.ramp_size i
  let g := crtc.saved_ramps.2.1.mapIdx fun i _ => linear_ramp_value crtc.ramp_size i
  let b := crtc.saved_ramps.2.2.mapIdx fun i _ => linear_ramp_value crtc.ramp_size i
  colorramp_fill whitePoint setting r g b

/-- The ramps `set_crtc_temperature` would have to write according to
the claim: the base value per channel at index `i` is the originally
captured ramp value at `i` (the captured ramps below are nonempty, so
the claim's linear fallback for uncaptured ramps does not apply). -/
def set_crtc_temperature_claimed (whitePoint : ℤ → ℚ × ℚ × ℚ)
    (setting : ColorSetting) (crtc : Crtc) : Ramps :=
  colorramp_fill whitePoint setting
    crtc.saved_ramps.1 crtc.saved_ramps.2.1 crtc.saved_ramps.2.2

/-- The hardware gamma state: CRTC id to current ramp triple. -/
abbrev Hardware := ℕ → Ramps

/-- src/gamma_randr.rs lines 181-206, `start`: capture the current ramps
(and their size) of every CRTC. -/
def start (h : Hardware) (ids : List ℕ) : List Crtc :=
  ids.map fun i => { id := i, ramp_size := (h i).1.length, saved_ramps := h i }

/-- A successful `set_crtc_gamma` request: replace the ramps of one
CRTC. -/
def applyWrite (h : Hardware) (i : ℕ) (ramps : Ramps) : Hardware :=
  fun j => if j = i then ramps else h j

/-- src/gamma_randr.rs lines 173-178, `set_temperature`: write the
freshly computed ramps of every captured CRTC. The `&self` receiver is
immutable: the captured records are not (and cannot be) modified. -/
def set_temperature (whitePoint : ℤ → ℚ × ℚ × ℚ) (setting : ColorSetting)
    (crtcs : List Crtc) (h : Hardware) : Hardware :=
  crtcs.foldl (fun hw c => applyWrite hw c.id (set_crtc_temperature whitePoint setting c)) h

/-- src/gamma_randr.rs lines 160-171, `restore`: write the saved ramps
of every captured CRTC back verbatim. -/
def restore (crtcs : List Crtc) (h : Hardware) : Hardware :=
  crtcs.foldl (fun hw c => applyWrite hw c.id c.saved_ramps) h


/-!
Continual mode (src/main.rs, `run_continual_mode`, lines 494-585). The
loop is driven by a schedule of wake-ups of its `chan_select`: either
the signal channel fired (INT/TERM coalesced into one event) or the
timer fired. A tick event carries the solar elevation computed for the
current wall-clock time and whether the backend write, if one is
attempted this tick, succeeds. The backend calls performed are collected
in a trace so that restore calls can be counted.
-/

/-- src/main.rs line 51: `NEUTRAL_TEMP`. -/
def NEUTRAL_TEMP : ℤ := 6500

/-- src/main.rs lines 406-423 with the default configuration
(lines 51-59 and 168-179): the scheme `run` passes to
`run_continual_mode` when no argument or config overrides anything:
day 5500K / night 3500K, brightness 1.0, gamma (1, 1, 1). -/
def defaultScheme : TransitionScheme :=
  { TransitionScheme.new with
    day := { temp := 5500, gamma := (1, 1, 1), brightness := 1 }
    night := { temp := 3500, gamma := (1, 1, 1), brightness := 1 } }

/-- A backend call observed during the run. -/
inductive BackendCall where
  | setTemp (c : ColorSetting)
  | restoreCall
deriving DecidableEq

/-- The number of `restore` calls in a trace. -/
def restores : List BackendCall → ℕ
  | [] => 0
  | BackendCall.restoreCall :: l => restores l + 1
  | BackendCall.setTemp _ :: l => restores l

/-- src/main.rs lines 517-520: the mutable state of the loop.
`prev_color_setting` starts as the `ColorSetting::new()` NaN sentinel,
which compares unequal to every computed setting; it is modelled as
`Option.none`. -/
structure LoopState where
  exiting : Bool
  scheme : TransitionScheme
  prevColor : Option ColorSetting
  prevPeriod : Period

/-- One wake-up of the `chan_select`. -/
inductive Event where
  | signal
  | tick (elev : ℚ) (writeOk : Bool)

/-- Outcome of one iteration of the loop body, together with the
backend calls it performed. -/
inductive StepOut where
  | cont (s : LoopState) (calls : List BackendCall)
  | halt (calls : List BackendCall)
  | fail (calls : List BackendCall)

/-- src/main.rs lines 550-557: the scheme after a tick — if a short
transition is ongoing, `adjust_transition_alpha` is applied first. -/
def tickScheme (sch : TransitionScheme) : TransitionScheme :=
  if sch.short_transition then sch.adjust_transition_alpha else sch

/-- src/main.rs lines 548-557: the color setting a tick computes —
`interpolate_color_settings`, then, if a short transition is ongoing,
temperature and brightness (but not gamma) blended toward neutral with
the freshly adjusted `adjustment_alpha`. -/
def tickSetting (sch : TransitionScheme) (elev : ℚ) : ColorSetting :=
  let cs0 := sch.interpolate_color_settings elev
  if sch.short_transition then
    { cs0 with
      temp := i32cast ((tickScheme sch).adjustment_alpha * (NEUTRAL_TEMP : ℚ) +
        (1 - (tickScheme sch).adjustment_alpha) * (cs0.temp : ℚ))
      brightness := (tickScheme sch).adjustment_alpha * 1 +
        (1 - (tickScheme sch).adjustment_alpha) * cs0.brightness }
  else cs0

/-- src/main.rs lines 567-569: the backend calls of one tick — a single
`set_temperature` write when the computed setting differs from the
previously applied one, nothing otherwise. -/
def writeCalls (s : LoopState) (cs : ColorSetting) : List BackendCall :=
  if s.prevColor = some cs then [] else [BackendCall.setTemp cs]

/-- src/main.rs lines 522-582: one iteration of the `chan_select` loop
body. A signal while already exiting breaks out of the loop
(lines 525-527); a first signal arms the shutdown short transition
(lines 528-531, note `short_trans_delta = 1` and `0.1 = 1/10`). A tick
computes the setting, writes it if it differs from the previous one — a
failing write makes the iteration fail the whole function through the
`?` on line 568 — and breaks out of the loop when exiting and no short
transition remains (lines 571-573). -/
def stepLoop (s : LoopState) : Event → StepOut
  | Event.signal =>
    if s.exiting then StepOut.halt []
    else
      StepOut.cont
        { s with
          exiting := true
          scheme := { s.scheme with
            short_trans_delta := 1
            short_trans_len := 2
            adjustment_alpha := 1 / 10 } } []
  | Event.tick elev ok =>
    if s.prevColor ≠ some (tickSetting s.scheme elev) ∧ ok = false then
      StepOut.fail (writeCalls s (tickSetting s.scheme elev))
    else if s.exiting = true ∧ ¬(tickScheme s.scheme).short_transition then
      StepOut.halt (writeCalls s (tickSetting s.scheme elev))
    else
      StepOut.cont
        { exiting := s.exiting
          scheme := tickScheme s.scheme
          prevColor := some (tickSetting s.scheme elev)
          prevPeriod := s.scheme.get_period elev }
        (writeCalls s (tickSetting s.scheme elev))

/-- How `run_continual_mode` returns. -/
inductive RunResult where
  | finished
  | fatal
  | running (s : LoopState)

/-- A run that has neither returned nor failed yet. -/
def RunResult.isRunning : RunResult → Prop
  | RunResult.running _ => True
  | _ => False

/-- src/main.rs lines 522-584: drive the loop over a finite schedule of
wake-ups and collect the trace of backend calls. Breaking out of the
loop reaches line 583, which performs exactly one `restore` call before
returning; a failed `set_temperature` returns through `?` (line 568),
skipping line 583. If the schedule is exhausted the loop is still
blocked in `chan_select`. -/
def runContinual (s : LoopState) : List Event → RunResult × List BackendCall
  | [] => (RunResult.running s, [])
  | e :: es =>
    match stepLoop s e with
    | StepOut.cont s' calls =>
      let r := runContinual s' es
      (r.1, calls ++ r.2)
    | StepOut.halt calls => (RunResult.finished, calls ++ [BackendCall.restoreCall])
    | StepOut.fail calls => (RunResult.fatal, calls)

/-- src/main.rs lines 517-521: the loop state on entry under the
default configuration. -/
def initState : LoopState :=
  { exiting := false
    scheme := defaultScheme
    prevColor := Option.none
    prevPeriod := Period.none }

/-- Helper extracting the continuation state of a step outcome. -/
def contStateOf : StepOut → LoopState
  | StepOut.cont s _ => s
  | StepOut.halt _ => initState
  | StepOut.fail _ => initState


/-- C4: the claim asserts a freshly constructed `TransitionScheme` has
`short_trans_delta = 0`; in fact `TransitionScheme::new`
(src/transition.rs line 71) sets `short_trans_delta = -1`, so a startup
short transition is active by default. -/
theorem c4_counterexample :
    TransitionScheme.new.short_trans_delta = -1 ∧
      ¬TransitionScheme.new.short_trans_delta = 0 := by
  constructor <;> decide

/-- C4 (amended): a freshly constructed `TransitionScheme` has
`adjustment_alpha = 1.0`, `short_trans_delta = -1` and
`short_trans_len = 10`: a startup short transition (a fade from neutral)
is active by default. -/
theorem c4_new_scheme :
    TransitionScheme.new.adjustment_alpha = 1 ∧
      TransitionScheme.new.short_trans_delta = -1 ∧
      TransitionScheme.new.short_trans_len = 10 ∧
      TransitionScheme.new.short_transition := by
  refine ⟨rfl, rfl, rfl, ?_⟩
  decide

/-- C5: for a scheme with `low < high`, `get_period` returns `Night`
below `low`, `Day` above `high`, and `Transition((low - e)/(low - high))`
in between; the boundaries are exact: `low ↦ Transition 0`,
`high ↦ Transition 1`. -/
theorem c5_get_period (s : TransitionScheme) (h : s.low < s.high) :
    (∀ e : ℚ, e < s.low → s.get_period e = Period.night) ∧
    (∀ e : ℚ, s.high < e → s.get_period e = Period.day) ∧
    (∀ e : ℚ, s.low ≤ e → e ≤ s.high →
      s.get_period e = Period.transition ((s.low - e) / (s.low - s.high))) ∧
    s.get_period s.low = Period.transition 0 ∧
    s.get_period s.high = Period.transition 1 := by
  refine ⟨fun e he => ?_, fun e he => ?_, fun e he1 he2 => ?_, ?_, ?_⟩
  · simp [TransitionScheme.get_period, he]
  · simp [TransitionScheme.get_period, not_lt.mpr (le_of_lt (lt_trans h he)), he]
  · simp [TransitionScheme.get_period, not_lt.mpr he1, not_lt.mpr he2]
  · simp [TransitionScheme.get_period, lt_irrefl, not_lt.mpr (le_of_lt h)]
  · have hne : s.low - s.high ≠ 0 := sub_ne_zero.mpr (ne_of_lt h)
    simp [TransitionScheme.get_period, not_lt.mpr (le_of_lt h), lt_irrefl,
      div_self hne]

/-- C5 witness: the theorem instantiated at the default scheme
(`low = -6`, `high = 3`) and concrete elevations. -/
theorem c5_get_period_witness :
    TransitionScheme.new.get_period (-7) = Period.night ∧
      TransitionScheme.new.get_period (-6) = Period.transition 0 ∧
      TransitionScheme.new.get_period 3 = Period.transition 1 := by
  have h := c5_get_period TransitionScheme.new (by norm_num [TransitionScheme.new])
  exact ⟨h.1 (-7) (by norm_num [TransitionScheme.new]), h.2.2.2.1, h.2.2.2.2⟩

/-- Truncation toward zero is monotone. -/
theorem ratTrunc_mono {q₁ q₂ : ℚ} (h : q₁ ≤ q₂) : ratTrunc q₁ ≤ ratTrunc q₂ := by
  unfold ratTrunc
  by_cases h1 : 0 ≤ q₁
  · rw [if_pos h1, if_pos (le_trans h1 h)]
    exact Int.floor_mono h
  · by_cases h2 : 0 ≤ q₂
    · rw [if_neg h1, if_pos h2]
      exact le_trans (Int.ceil_le.mpr (by exact_mod_cast le_of_not_le h1))
        (Int.le_floor.mpr (by exact_mod_cast h2))
    · rw [if_neg h1, if_neg h2]
      exact Int.ceil_mono h

/-- The saturating `as i32` cast is monotone. -/
theorem i32cast_mono {q₁ q₂ : ℚ} (h : q₁ ≤ q₂) : i32cast q₁ ≤ i32cast q₂ :=
  max_le_max le_rfl (min_le_min le_rfl (ratTrunc_mono h))

/-- Linear blending from `a` toward `b` is monotone in the coefficient
when `a ≤ b`. -/
theorem blend_mono {a b c₁ c₂ : ℚ} (hc : c₁ ≤ c₂) (hab : a ≤ b) :
    (1 - c₁) * a + c₁ * b ≤ (1 - c₂) * a + c₂ * b := by nlinarith

/-- Linear blending from `a` toward `b` is antitone in the coefficient
when `b ≤ a`. -/
theorem blend_anti {a b c₁ c₂ : ℚ} (hc : c₁ ≤ c₂) (hab : b ≤ a) :
    (1 - c₂) * a + c₂ * b ≤ (1 - c₁) * a + c₁ * b := by nlinarith

/-- The raw interpolation coefficient is monotone in the elevation when
`low < high`. -/
theorem clamped_alpha_mono (s : TransitionScheme) (h : s.low < s.high)
    {e₁ e₂ : ℚ} (he : e₁ ≤ e₂) :
    s.clamped_alpha e₁ ≤ s.clamped_alpha e₂ := by
  unfold TransitionScheme.clamped_alpha
  have hc : s.low - s.high < 0 := by linarith
  have hdiv : (s.low - e₁) / (s.low - s.high) ≤ (s.low - e₂) / (s.low - s.high) := by
    rw [div_eq_mul_inv, div_eq_mul_inv]
    exact mul_le_mul_of_nonpos_right (by linarith) (inv_nonpos.mpr (le_of_lt hc))
  exact max_le_max (min_le_min hdiv le_rfl) le_rfl

/-- C6: for every scheme with `low < high`, the blending coefficient of
`interpolate_color_settings` always lies in `[0, 1]` (for every
elevation, however far outside `[low, high]`), and every blended field
(including the truncated temperature) varies monotonically with the
elevation between `low` and `high` — increasing if the night value is
below the day value and decreasing otherwise. -/
theorem c6_interpolate_monotone (s : TransitionScheme) (h : s.low < s.high) :
    (∀ e : ℚ, 0 ≤ s.clamped_alpha e ∧ s.clamped_alpha e ≤ 1) ∧
    (∀ e₁ e₂ : ℚ, s.low ≤ e₁ → e₁ ≤ e₂ → e₂ ≤ s.high →
      s.clamped_alpha e₁ ≤ s.clamped_alpha e₂ ∧
      (s.night.temp ≤ s.day.temp →
        (s.interpolate_color_settings e₁).temp ≤
          (s.interpolate_color_settings e₂).temp) ∧
      (s.day.temp ≤ s.night.temp →
        (s.interpolate_color_settings e₂).temp ≤
          (s.interpolate_color_settings e₁).temp) ∧
      (s.night.brightness ≤ s.day.brightness →
        (s.interpolate_color_settings e₁).brightness ≤
          (s.interpolate_color_settings e₂).brightness) ∧
      (s.day.brightness ≤ s.night.brightness →
        (s.interpolate_color_settings e₂).brightness ≤
          (s.interpolate_color_settings e₁).brightness) ∧
      (s.night.gamma.1 ≤ s.day.gamma.1 →
        (s.interpolate_color_settings e₁).gamma.1 ≤
          (s.interpolate_color_settings e₂).gamma.1) ∧
      (s.day.gamma.1 ≤ s.night.gamma.1 →
        (s.interpolate_color_settings e₂).gamma.1 ≤
          (s.interpolate_color_settings e₁).gamma.1) ∧
      (s.night.gamma.2.1 ≤ s.day.gamma.2.1 →
        (s.interpolate_color_settings e₁).gamma.2.1 ≤
          (s.interpolate_color_settings e₂).gamma.2.1) ∧
      (s.day.gamma.2.1 ≤ s.night.gamma.2.1 →
        (s.interpolate_color_settings e₂).gamma.2.1 ≤
          (s.interpolate_color_settings e₁).gamma.2.1) ∧
      (s.night.gamma.2.2 ≤ s.day.gamma.2.2 →
        (s.interpolate_color_settings e₁).gamma.2.2 ≤
          (s.interpolate_color_settings e₂).gamma.2.2) ∧
      (s.day.gamma.2.2 ≤ s.night.gamma.2.2 →
        (s.interpolate_color_settings e₂).gamma.2.2 ≤
          (s.interpolate_color_settings e₁).gamma.2.2)) := by
  constructor
  · intro e
    exact ⟨le_max_right _ _, max_le (min_le_right _ _) zero_le_one⟩
  · intro e₁ e₂ _ he _
    have hα : s.clamped_alpha e₁ ≤ s.clamped_alpha e₂ := clamped_alpha_mono s h he
    refine ⟨hα, ?_, ?_, ?_, ?_, ?_, ?_, ?_, ?_, ?_, ?_⟩ <;>
      intro hd <;> simp only [TransitionScheme.interpolate_color_settings]
    · exact i32cast_mono (blend_mono hα (by exact_mod_cast hd))
    · exact i32cast_mono (blend_anti hα (by exact_mod_cast hd))
    · exact blend_mono hα hd
    · exact blend_anti hα hd
    · exact blend_mono hα hd
    · exact blend_anti hα hd
    · exact blend_mono hα hd
    · exact blend_anti hα hd
    · exact blend_mono hα hd
    · exact blend_anti hα hd

/-- C6 witness: the theorem instantiated at the default scheme and the
boundary elevations. -/
theorem c6_interpolate_monotone_witness :
    (0 ≤ TransitionScheme.new.clamped_alpha 100 ∧
      TransitionScheme.new.clamped_alpha 100 ≤ 1) ∧
    TransitionScheme.new.clamped_alpha (-6) ≤
      TransitionScheme.new.clamped_alpha 3 := by
  have h := c6_interpolate_monotone TransitionScheme.new
    (by norm_num [TransitionScheme.new])
  exact ⟨h.1 100, (h.2 (-6) 3 (by norm_num [TransitionScheme.new]) (by norm_num)
    (by norm_num [TransitionScheme.new])).1⟩

/-- C8: the claim quantifies over every scheme state with
`short_trans_delta = 0`, but `adjust_transition_alpha` also clamps
`adjustment_alpha` into `[0, 1]`; on a state with `short_trans_delta = 0`
and `adjustment_alpha = 5` a single call changes `adjustment_alpha`
to `1`. -/
theorem c8_counterexample :
    (TransitionScheme.adjust_transition_alpha
      { TransitionScheme.new with
        short_trans_delta := 0, short_trans_len := 2,
        adjustment_alpha := 5 }).adjustment_alpha = 1 ∧
    ¬(TransitionScheme.adjust_transition_alpha
      { TransitionScheme.new with
        short_trans_delta := 0, short_trans_len := 2,
        adjustment_alpha := 5 }).adjustment_alpha = 5 := by
  constructor <;> norm_num [TransitionScheme.adjust_transition_alpha]

/-- C8 (amended): on every state with `short_trans_delta = 0`, a nonzero
`short_trans_len` and `adjustment_alpha` already in `[0, 1]` (which is
the only way the operation itself ever produces a terminal state),
`adjust_transition_alpha` is the identity, so repeated calls change
nothing; whenever the updated alpha reaches `0` or below (resp. `1` or
above) it is clamped to `0` (resp. `1`) and `short_trans_delta` is set
to `0`; and the operation never changes `short_trans_delta` to a nonzero
value, so the terminal state is never restarted by it. -/
theorem c8_adjust_terminal (s : TransitionScheme) :
    (s.short_trans_delta = 0 → 0 < s.short_trans_len →
      0 ≤ s.adjustment_alpha → s.adjustment_alpha ≤ 1 →
      s.adjust_transition_alpha = s) ∧
    (s.adjustment_alpha + (s.short_trans_delta : ℚ) * (1 / 10) /
        (s.short_trans_len : ℚ) ≤ 0 →
      s.adjust_transition_alpha.adjustment_alpha = 0 ∧
      s.adjust_transition_alpha.short_trans_delta = 0) ∧
    (1 ≤ s.adjustment_alpha + (s.short_trans_delta : ℚ) * (1 / 10) /
        (s.short_trans_len : ℚ) →
      s.adjust_transition_alpha.adjustment_alpha = 1 ∧
      s.adjust_transition_alpha.short_trans_delta = 0) ∧
    (s.adjust_transition_alpha.short_trans_delta = 0 ∨
      s.adjust_transition_alpha.short_trans_delta = s.short_trans_delta) := by
  refine ⟨?_, ?_, ?_, ?_⟩
  · intro hd _ h0 h1
    have ha : s.adjustment_alpha + (s.short_trans_delta : ℚ) * (1 / 10) /
        (s.short_trans_len : ℚ) = s.adjustment_alpha := by
      rw [hd]; push_cast; ring
    refine TransitionScheme.ext rfl rfl rfl rfl ?_ rfl ?_
    · show (if _ then 0 else s.short_trans_delta) = s.short_trans_delta
      rw [hd, ite_self]
    · show min (max _ 0) 1 = s.adjustment_alpha
      rw [ha, max_eq_left h0, min_eq_left h1]
  · intro ha
    constructor
    · simp only [TransitionScheme.adjust_transition_alpha]
      rw [max_eq_right ha, min_eq_left zero_le_one]
    · simp only [TransitionScheme.adjust_transition_alpha]
      rw [if_pos (Or.inl ha)]
  · intro ha
    constructor
    · simp only [TransitionScheme.adjust_transition_alpha]
      rw [max_eq_left (le_trans zero_le_one ha), min_eq_right ha]
    · simp only [TransitionScheme.adjust_transition_alpha]
      rw [if_pos (Or.inr ha)]
  · simp only [TransitionScheme.adjust_transition_alpha]
    split
    · exact Or.inl rfl
    · exact Or.inr rfl

/-- C8 witness: the idempotence part applied at a concrete terminal
state, and the clamping part applied at the counterexample-style state. -/
theorem c8_adjust_terminal_witness :
    TransitionScheme.adjust_transition_alpha
      { TransitionScheme.new with
        short_trans_delta := 0, short_trans_len := 2,
        adjustment_alpha := 1 / 2 } =
    { TransitionScheme.new with
      short_trans_delta := 0, short_trans_len := 2,
      adjustment_alpha := 1 / 2 } :=
  (c8_adjust_terminal _).1 rfl (by norm_num) (by norm_num) (by norm_num)

/-- C10: `get_period` never returns `Period.none`: for every scheme and
every elevation the result is `Night`, `Day` or `Transition`. -/
theorem c10_get_period_ne_none (s : TransitionScheme) (e : ℚ) :
    s.get_period e ≠ Period.none := by
  unfold TransitionScheme.get_period
  split
  · simp
  · split <;> simp

/-- C9: `elevation` is a pure deterministic function — it is a function
of its two arguments alone, so equal inputs yield equal results — and it
equals the specified composition: `asin` of
`cos(HA)·cos(lat)·cos(decl) + sin(lat)·sin(decl)` converted to degrees,
with `JD`, `offset`, `HA`, `decl` and `eqTime` as written in the claim.
The equality holds over every field and every interpretation of the
primitive `f64` operations, in particular over the reals. -/
theorem c9_elevation_spec {α : Type} [Field α] (ops : FloatOps α) :
    (∀ t₁ t₂ : α, ∀ loc₁ loc₂ : Location α, t₁ = t₂ → loc₁ = loc₂ →
      Solar.elevation ops t₁ loc₁ = Solar.elevation ops t₂ loc₂) ∧
    (∀ (t : α) (loc : Location α),
      Solar.elevation ops t loc = Solar.elevation_spec ops t loc) := by
  constructor
  · intro t₁ t₂ loc₁ loc₂ ht hloc
    rw [ht, hloc]
  · intro t loc
    rfl

/-- C9 witness: the theorem applied over `ℚ` with a concrete
interpretation of the primitive operations, at `t = 0` and the origin
location. -/
theorem c9_elevation_spec_witness :
    Solar.elevation qOps (0 : ℚ) ⟨0, 0⟩ =
      Solar.elevation_spec qOps (0 : ℚ) ⟨0, 0⟩ ∧
    Solar.elevation qOps (0 : ℚ) ⟨0, 0⟩ =
      Solar.elevation qOps (0 : ℚ) ⟨0, 0⟩ :=
  ⟨(c9_elevation_spec qOps).2 0 ⟨0, 0⟩,
    (c9_elevation_spec qOps).1 0 0 ⟨0, 0⟩ ⟨0, 0⟩ rfl rfl⟩

/-- A map over the indices alone is the map of the function over the
range of the length. -/
theorem mapIdx_const {β γ : Type} (f : ℕ → γ) (l : List β) :
    List.mapIdx (fun i _ => f i) l = (List.range l.length).map f := by
  rw [List.mapIdx_eq_enum_map, List.enum_eq_zip_range,
    show (Function.uncurry fun i (_ : β) => f i) = (f ∘ Prod.fst) from rfl,
    ← List.map_map, List.map_fst_zip]
  simp

/-- Restoring the snapshots captured from `h0` rewrites every captured
id to its `h0` ramps, whatever the current hardware state is. -/
theorem restore_start (h0 : Hardware) (ids : List ℕ) (h : Hardware) (i : ℕ) :
    restore (start h0 ids) h i = if i ∈ ids then h0 i else h i := by
  induction ids generalizing h with
  | nil => simp [restore, start]
  | cons a rest ih =>
    show restore (start h0 rest) (applyWrite h a (h0 a)) i = _
    rw [ih]
    by_cases hr : i ∈ rest
    · simp [hr]
    · by_cases ha : i = a
      · subst ha
        simp [hr, applyWrite]
      · simp [hr, ha, applyWrite]

/-- C3: the claim asserts the written ramp values are derived from the
originally captured ramp values, with the linear ramp only as a fallback
when nothing was captured. In fact src/gamma_randr.rs lines 119-124
overwrite every entry of the cloned saved ramps with the linear value
before `colorramp_fill` runs: on a CRTC whose captured red ramp is
`[7, 7]` (ramp size 2), with the neutral multiplier/gamma/brightness,
the code writes `[0, 32768]` while the claimed derivation from the
captured base would write `[7, 7]`. -/
theorem c3_counterexample :
    (set_crtc_temperature (fun _ => (1, 1, 1)) ⟨6500, (1, 1, 1), 1⟩
        ⟨0, 2, ([7, 7], [7, 7], [7, 7])⟩).1 = [0, 32768] ∧
    (set_crtc_temperature_claimed (fun _ => (1, 1, 1)) ⟨6500, (1, 1, 1), 1⟩
        ⟨0, 2, ([7, 7], [7, 7], [7, 7])⟩).1 = [7, 7] ∧
    set_crtc_temperature (fun _ => (1, 1, 1)) ⟨6500, (1, 1, 1), 1⟩
        ⟨0, 2, ([7, 7], [7, 7], [7, 7])⟩ ≠
      set_crtc_temperature_claimed (fun _ => (1, 1, 1)) ⟨6500, (1, 1, 1), 1⟩
        ⟨0, 2, ([7, 7], [7, 7], [7, 7])⟩ := by
  have h1 : (set_crtc_temperature (fun _ => (1, 1, 1)) ⟨6500, (1, 1, 1), 1⟩
      ⟨0, 2, ([7, 7], [7, 7], [7, 7])⟩).1 = [0, 32768] := by
    norm_num [set_crtc_temperature, colorramp_fill, linear_ramp_value,
      u16cast, ratTrunc, List.mapIdx_cons, Int.toNat_ofNat]
    decide
  have h2 : (set_crtc_temperature_claimed (fun _ => (1, 1, 1)) ⟨6500, (1, 1, 1), 1⟩
      ⟨0, 2, ([7, 7], [7, 7], [7, 7])⟩).1 = [7, 7] := by
    norm_num [set_crtc_temperature_claimed, colorramp_fill, u16cast, ratTrunc,
      Int.toNat_ofNat]
    decide
  refine ⟨h1, h2, fun hcontra => ?_⟩
  rw [hcontra, h2] at h1
  exact absurd h1 (by decide)

/-- C3 (amended): the ramps `set_crtc_temperature` writes are derived
from the linear ramp `i / ramp_size * 65536` alone — they do not depend
on the captured ramp values at all (only on their lengths, which fix the
loop bound); the captured values are used only by `restore`. -/
theorem c3_linear_base (whitePoint : ℤ → ℚ × ℚ × ℚ) (setting : ColorSetting)
    (c₁ c₂ : Crtc) (hsize : c₁.ramp_size = c₂.ramp_size)
    (h1 : c₁.saved_ramps.1.length = c₂.saved_ramps.1.length)
    (h2 : c₁.saved_ramps.2.1.length = c₂.saved_ramps.2.1.length)
    (h3 : c₁.saved_ramps.2.2.length = c₂.saved_ramps.2.2.length) :
    set_crtc_temperature whitePoint setting c₁ =
      set_crtc_temperature whitePoint setting c₂ := by
  unfold set_crtc_temperature
  rw [mapIdx_const, mapIdx_const, mapIdx_const, mapIdx_const, mapIdx_const,
    mapIdx_const, hsize, h1, h2, h3]

/-- C3 witness: two CRTCs of equal geometry but different captured
contents receive identical writes. -/
theorem c3_linear_base_witness :
    set_crtc_temperature (fun _ => (1, 1, 1)) ⟨6500, (1, 1, 1), 1⟩
        ⟨0, 2, ([7, 7], [7, 7], [7, 7])⟩ =
      set_crtc_temperature (fun _ => (1, 1, 1)) ⟨6500, (1, 1, 1), 1⟩
        ⟨5, 2, ([1, 2], [3, 4], [5, 6])⟩ :=
  c3_linear_base _ _ _ _ rfl rfl rfl rfl

/-- C7: after any sequence of `set_temperature` calls, `restore` writes
back, for every captured CRTC, exactly the ramps captured by `start`,
bit-for-bit: the snapshots are never modified after capture (conjunct
one: each captured record holds exactly the hardware ramps at capture
time; `set_temperature` takes the state immutably and cannot touch
them), and re-applying them returns the hardware to its captured
state (conjunct two). -/
theorem c7_restore_roundtrip (whitePoint : ℤ → ℚ × ℚ × ℚ) (h0 : Hardware)
    (ids : List ℕ) (settings : List ColorSetting) (i : ℕ) (hi : i ∈ ids) :
    (∀ c ∈ start h0 ids, c.saved_ramps = h0 c.id) ∧
    restore (start h0 ids)
      (settings.foldl
        (fun hw st => set_temperature whitePoint st (start h0 ids) hw) h0) i =
      h0 i := by
  constructor
  · intro c hc
    obtain ⟨j, _, rfl⟩ := List.mem_map.mp hc
    rfl
  · rw [restore_start]
    simp [hi]

/-- C7 witness: the theorem applied to a one-output hardware, one
`set_temperature` call in between. -/
theorem c7_restore_roundtrip_witness :
    restore (start (fun _ => ([7], [7], [7])) [0])
      ([(⟨6500, (1, 1, 1), 1⟩ : ColorSetting)].foldl
        (fun hw st => set_temperature (fun _ => (1, 1, 1)) st
          (start (fun _ => ([7], [7], [7])) [0]) hw)
        (fun _ => ([7], [7], [7]))) 0 =
      (fun _ => (([7], [7], [7]) : Ramps)) 0 :=
  (c7_restore_roundtrip (fun _ => (1, 1, 1)) (fun _ => ([7], [7], [7])) [0]
    [⟨6500, (1, 1, 1), 1⟩] 0 (by simp)).2

/-- Counting restore calls distributes over concatenation. -/
theorem restores_append (l₁ l₂ : List BackendCall) :
    restores (l₁ ++ l₂) = restores l₁ + restores l₂ := by
  induction l₁ with
  | nil => simp [restores]
  | cons a l ih =>
    cases a with
    | setTemp c => simp [restores, ih]
    | restoreCall =>
      simp [restores, ih]
      omega

/-- The calls of a single tick contain no restore. -/
theorem restores_writeCalls (s : LoopState) (cs : ColorSetting) :
    restores (writeCalls s cs) = 0 := by
  unfold writeCalls
  split <;> simp [restores]

/-- No single loop iteration performs a restore call. -/
theorem restores_stepLoop (s : LoopState) (e : Event) :
    (∀ s' calls, stepLoop s e = StepOut.cont s' calls → restores calls = 0) ∧
    (∀ calls, stepLoop s e = StepOut.halt calls → restores calls = 0) ∧
    (∀ calls, stepLoop s e = StepOut.fail calls → restores calls = 0) := by
  cases e with
  | signal =>
    simp only [stepLoop]
    by_cases hex : s.exiting = true
    · rw [if_pos hex]
      refine ⟨fun s' calls h => by simp at h, fun calls h => ?_,
        fun calls h => by simp at h⟩
      injection h with h'
      subst h'
      rfl
    · rw [if_neg hex]
      refine ⟨fun s' calls h => ?_, fun calls h => by simp at h,
        fun calls h => by simp at h⟩
      injection h with _ h'
      subst h'
      rfl
  | tick elev ok =>
    simp only [stepLoop]
    by_cases hw : s.prevColor ≠ some (tickSetting s.scheme elev) ∧ ok = false
    · rw [if_pos hw]
      refine ⟨fun s' calls h => by simp at h, fun calls h => by simp at h,
        fun calls h => ?_⟩
      injection h with h'
      subst h'
      exact restores_writeCalls _ _
    · rw [if_neg hw]
      by_cases hh : s.exiting = true ∧ ¬(tickScheme s.scheme).short_transition
      · rw [if_pos hh]
        refine ⟨fun s' calls h => by simp at h, fun calls h => ?_,
          fun calls h => by simp at h⟩
        injection h with h'
        subst h'
        exact restores_writeCalls _ _
      · rw [if_neg hh]
        refine ⟨fun s' calls h => ?_, fun calls h => by simp at h,
          fun calls h => by simp at h⟩
        injection h with _ h'
        subst h'
        exact restores_writeCalls _ _

/-- Equation: a run over an empty schedule is still blocked. -/
theorem runContinual_nil (s : LoopState) :
    runContinual s [] = (RunResult.running s, []) := rfl

/-- Equation: a continuing iteration prepends its calls. -/
theorem runContinual_cons_cont (s : LoopState) (e : Event) (es : List Event)
    (s₁ : LoopState) (calls : List BackendCall)
    (h : stepLoop s e = StepOut.cont s₁ calls) :
    runContinual s (e :: es) =
      ((runContinual s₁ es).1, calls ++ (runContinual s₁ es).2) := by
  show (match stepLoop s e with
    | StepOut.cont s' calls =>
      ((runContinual s' es).1, calls ++ (runContinual s' es).2)
    | StepOut.halt calls => (RunResult.finished, calls ++ [BackendCall.restoreCall])
    | StepOut.fail calls => (RunResult.fatal, calls)) = _
  rw [h]

/-- Equation: breaking out of the loop restores once and finishes. -/
theorem runContinual_cons_halt (s : LoopState) (e : Event) (es : List Event)
    (calls : List BackendCall) (h : stepLoop s e = StepOut.halt calls) :
    runContinual s (e :: es) =
      (RunResult.finished, calls ++ [BackendCall.restoreCall]) := by
  show (match stepLoop s e with
    | StepOut.cont s' calls =>
      ((runContinual s' es).1, calls ++ (runContinual s' es).2)
    | StepOut.halt calls => (RunResult.finished, calls ++ [BackendCall.restoreCall])
    | StepOut.fail calls => (RunResult.fatal, calls)) = _
  rw [h]

/-- Equation: a failing write aborts the run with no further calls. -/
theorem runContinual_cons_fail (s : LoopState) (e : Event) (es : List Event)
    (calls : List BackendCall) (h : stepLoop s e = StepOut.fail calls) :
    runContinual s (e :: es) = (RunResult.fatal, calls) := by
  show (match stepLoop s e with
    | StepOut.cont s' calls =>
      ((runContinual s' es).1, calls ++ (runContinual s' es).2)
    | StepOut.halt calls => (RunResult.finished, calls ++ [BackendCall.restoreCall])
    | StepOut.fail calls => (RunResult.fatal, calls)) = _
  rw [h]

/-- C1 (amended): leaving the loop through either break path (fade
completion after a first signal, or forced exit on a second signal)
performs exactly one `restore` call before `run_continual_mode`
returns; but when a `set_temperature` call fails during a tick, the `?`
operator on line 568 of src/main.rs propagates the error immediately
and no `restore` call happens at all. -/
theorem c1_restore_accounting (s : LoopState) (evs : List Event) :
    ((runContinual s evs).1 = RunResult.finished →
      restores (runContinual s evs).2 = 1) ∧
    ((runContinual s evs).1 = RunResult.fatal →
      restores (runContinual s evs).2 = 0) ∧
    (∀ s', (runContinual s evs).1 = RunResult.running s' →
      restores (runContinual s evs).2 = 0) := by
  induction evs generalizing s with
  | nil =>
    refine ⟨fun h => ?_, fun h => ?_, fun s' _ => rfl⟩
    · rw [runContinual_nil] at h
      simp at h
    · rw [runContinual_nil] at h
      simp at h
  | cons e es ih =>
    cases hs : stepLoop s e with
    | cont s₁ calls =>
      rw [runContinual_cons_cont s e es s₁ calls hs]
      have h0 : restores calls = 0 := (restores_stepLoop s e).1 s₁ calls hs
      refine ⟨fun h => ?_, fun h => ?_, fun s' h => ?_⟩
      · show restores (calls ++ (runContinual s₁ es).2) = 1
        rw [restores_append, h0, Nat.zero_add]
        exact (ih s₁).1 h
      · show restores (calls ++ (runContinual s₁ es).2) = 0
        rw [restores_append, h0, Nat.zero_add]
        exact (ih s₁).2.1 h
      · show restores (calls ++ (runContinual s₁ es).2) = 0
        rw [restores_append, h0, Nat.zero_add]
        exact (ih s₁).2.2 s' h
    | halt calls =>
      rw [runContinual_cons_halt s e es calls hs]
      have h0 : restores calls = 0 := (restores_stepLoop s e).2.1 calls hs
      refine ⟨fun _ => ?_, fun h => absurd h (by simp), fun s' h => absurd h (by simp)⟩
      show restores (calls ++ [BackendCall.restoreCall]) = 1
      rw [restores_append, h0]
      rfl
    | fail calls =>
      rw [runContinual_cons_fail s e es calls hs]
      have h0 : restores calls = 0 := (restores_stepLoop s e).2.2 calls hs
      exact ⟨fun h => absurd h (by simp), fun _ => h0, fun s' h => absurd h (by simp)⟩

/-- C1: the claim requires exactly one `restore` call on every exit
path, including a fatal backend write failure during a tick; in fact a
`set_temperature` failure on the very first tick makes the run return
the error with no `restore` call at all. -/
theorem c1_counterexample :
    (runContinual initState [Event.tick 0 false]).1 = RunResult.fatal ∧
    restores (runContinual initState [Event.tick 0 false]).2 = 0 := by
  have hfail : stepLoop initState (Event.tick 0 false) =
      StepOut.fail [BackendCall.setTemp (tickSetting initState.scheme 0)] := by
    simp only [stepLoop]
    rw [if_pos ⟨by simp [initState], by trivial⟩]
    rfl
  rw [runContinual_cons_fail _ _ _ _ hfail]
  exact ⟨rfl, rfl⟩

/-- C1 witness: the accounting theorem applied to the forced-exit run
(two signals), which restores exactly once. -/
theorem c1_restore_accounting_witness :
    restores (runContinual initState [Event.signal, Event.signal]).2 = 1 := by
  refine (c1_restore_accounting initState [Event.signal, Event.signal]).1 ?_
  have h1 : stepLoop initState Event.signal = StepOut.cont
      { initState with
        exiting := true
        scheme := { initState.scheme with
          short_trans_delta := 1
          short_trans_len := 2
          adjustment_alpha := 1 / 10 } } [] := by
    simp only [stepLoop]
    rw [if_neg (by simp [initState])]
  have h2 : stepLoop
      { initState with
        exiting := true
        scheme := { initState.scheme with
          short_trans_delta := 1
          short_trans_len := 2
          adjustment_alpha := 1 / 10 } } Event.signal = StepOut.halt [] := by
    simp only [stepLoop]
    rw [if_pos (by trivial)]
  rw [runContinual_cons_cont _ _ _ _ _ h1, runContinual_cons_halt _ _ _ _ h2]

/-- During the shutdown fade (`delta = 1`, `len = 2`) one adjustment
step adds exactly `0.1 / 2 = 1/20` to `adjustment_alpha` and keeps the
transition armed as long as the result stays inside `(0, 1)`. -/
theorem adjust_fade_lt (sch : TransitionScheme) (hd : sch.short_trans_delta = 1)
    (hl : sch.short_trans_len = 2) (h0 : 0 < sch.adjustment_alpha + 1 / 20)
    (h1 : sch.adjustment_alpha + 1 / 20 < 1) :
    sch.adjust_transition_alpha =
      { sch with
        short_trans_delta := 1
        adjustment_alpha := sch.adjustment_alpha + 1 / 20 } := by
  have hA : sch.adjustment_alpha + (sch.short_trans_delta : ℚ) * (1 / 10) /
      (sch.short_trans_len : ℚ) = sch.adjustment_alpha + 1 / 20 := by
    rw [hd, hl]
    push_cast
    ring
  refine TransitionScheme.ext rfl rfl rfl rfl ?_ rfl ?_
  · show (if _ ≤ 0 ∨ 1 ≤ _ then 0 else sch.short_trans_delta) = 1
    rw [hA, if_neg (by push_neg; exact ⟨h0, h1⟩)]
    exact hd
  · show min (max _ 0) 1 = sch.adjustment_alpha + 1 / 20
    rw [hA, max_eq_left (le_of_lt h0), min_eq_left (le_of_lt h1)]

/-- During the shutdown fade, the adjustment step that reaches `1` (or
beyond) clamps `adjustment_alpha` to `1` and clears the delta: the fade
is complete. -/
theorem adjust_fade_ge (sch : TransitionScheme) (hd : sch.short_trans_delta = 1)
    (hl : sch.short_trans_len = 2) (h1 : 1 ≤ sch.adjustment_alpha + 1 / 20) :
    sch.adjust_transition_alpha =
      { sch with short_trans_delta := 0, adjustment_alpha := 1 } := by
  have hA : sch.adjustment_alpha + (sch.short_trans_delta : ℚ) * (1 / 10) /
      (sch.short_trans_len : ℚ) = sch.adjustment_alpha + 1 / 20 := by
    rw [hd, hl]
    push_cast
    ring
  refine TransitionScheme.ext rfl rfl rfl rfl ?_ rfl ?_
  · show (if _ ≤ 0 ∨ 1 ≤ _ then 0 else sch.short_trans_delta) = 0
    rw [hA, if_pos (Or.inr h1)]
  · show min (max _ 0) 1 = 1
    rw [hA, max_eq_left (le_trans zero_le_one h1), min_eq_right h1]

/-- A mid-fade tick (write succeeding): the loop continues with
`adjustment_alpha` increased by exactly `1/20` and the fade still
armed. -/
theorem stepLoop_fade_cont (s : LoopState) (elev : ℚ) (hex : s.exiting = true)
    (hd : s.scheme.short_trans_delta = 1) (hl : s.scheme.short_trans_len = 2)
    (h0 : 0 < s.scheme.adjustment_alpha + 1 / 20)
    (h1 : s.scheme.adjustment_alpha + 1 / 20 < 1) :
    stepLoop s (Event.tick elev true) =
      StepOut.cont
        { exiting := true
          scheme := { s.scheme with
            short_trans_delta := 1
            adjustment_alpha := s.scheme.adjustment_alpha + 1 / 20 }
          prevColor := some (tickSetting s.scheme elev)
          prevPeriod := s.scheme.get_period elev }
        (writeCalls s (tickSetting s.scheme elev)) := by
  have hshort : s.scheme.short_transition := by
    unfold TransitionScheme.short_transition
    rw [hd]
    exact one_ne_zero
  have hts : tickScheme s.scheme =
      { s.scheme with
        short_trans_delta := 1
        adjustment_alpha := s.scheme.adjustment_alpha + 1 / 20 } := by
    unfold tickScheme
    rw [if_pos hshort, adjust_fade_lt s.scheme hd hl h0 h1]
  show (if s.prevColor ≠ some (tickSetting s.scheme elev) ∧ (true = false) then
      StepOut.fail (writeCalls s (tickSetting s.scheme elev))
    else if s.exiting = true ∧ ¬(tickScheme s.scheme).short_transition then
      StepOut.halt (writeCalls s (tickSetting s.scheme elev))
    else
      StepOut.cont
        { exiting := s.exiting
          scheme := tickScheme s.scheme
          prevColor := some (tickSetting s.scheme elev)
          prevPeriod := s.scheme.get_period elev }
        (writeCalls s (tickSetting s.scheme elev))) = _
  rw [hts, hex, if_neg (by simp), if_neg (fun h => h.2 one_ne_zero)]

/-- The fade tick that reaches `adjustment_alpha = 1`: the short
transition completes and the loop breaks out. -/
theorem stepLoop_fade_halt (s : LoopState) (elev : ℚ) (hex : s.exiting = true)
    (hd : s.scheme.short_trans_delta = 1) (hl : s.scheme.short_trans_len = 2)
    (h1 : 1 ≤ s.scheme.adjustment_alpha + 1 / 20) :
    stepLoop s (Event.tick elev true) =
      StepOut.halt (writeCalls s (tickSetting s.scheme elev)) := by
  have hshort : s.scheme.short_transition := by
    unfold TransitionScheme.short_transition
    rw [hd]
    exact one_ne_zero
  have hts : tickScheme s.scheme =
      { s.scheme with short_trans_delta := 0, adjustment_alpha := 1 } := by
    unfold tickScheme
    rw [if_pos hshort, adjust_fade_ge s.scheme hd hl h1]
  show (if s.prevColor ≠ some (tickSetting s.scheme elev) ∧ (true = false) then
      StepOut.fail (writeCalls s (tickSetting s.scheme elev))
    else if s.exiting = true ∧ ¬(tickScheme s.scheme).short_transition then
      StepOut.halt (writeCalls s (tickSetting s.scheme elev))
    else
      StepOut.cont
        { exiting := s.exiting
          scheme := tickScheme s.scheme
          prevColor := some (tickSetting s.scheme elev)
          prevPeriod := s.scheme.get_period elev }
        (writeCalls s (tickSetting s.scheme elev))) = _
  rw [hts, hex, if_neg (by simp), if_pos ⟨rfl, fun h => h rfl⟩]

/-- The armed shutdown fade with `adjustment_alpha = 1 - k/20` and
`1 ≤ k ≤ 19` terminates in exactly `k` further ticks with one restore
call, and is still running strictly before. -/
theorem fade_run (elev : ℚ) : ∀ (k : ℕ) (s : LoopState), s.exiting = true →
    s.scheme.short_trans_delta = 1 → s.scheme.short_trans_len = 2 →
    s.scheme.adjustment_alpha + (k : ℚ) / 20 = 1 → 1 ≤ k → k ≤ 19 →
    ((runContinual s (List.replicate k (Event.tick elev true))).1 =
        RunResult.finished ∧
      restores (runContinual s (List.replicate k (Event.tick elev true))).2 = 1) ∧
    (∀ j : ℕ, 1 ≤ j → j < k →
      RunResult.isRunning
        (runContinual s (List.replicate j (Event.tick elev true))).1) := by
  intro k
  induction k with
  | zero =>
    intro s _ _ _ _ hk _
    exact absurd hk (by norm_num)
  | succ k ih =>
    intro s hex hd hl hα _ hk19
    by_cases hk0 : k = 0
    · subst hk0
      have h1 : 1 ≤ s.scheme.adjustment_alpha + 1 / 20 := by
        push_cast at hα
        linarith
      have hstep := stepLoop_fade_halt s elev hex hd hl h1
      refine ⟨?_, fun j hj1 hj2 => absurd hj2 (by omega)⟩
      rw [show List.replicate 1 (Event.tick elev true) = [Event.tick elev true]
        from rfl]
      rw [runContinual_cons_halt _ _ _ _ hstep]
      refine ⟨rfl, ?_⟩
      show restores (writeCalls s (tickSetting s.scheme elev) ++
        [BackendCall.restoreCall]) = 1
      rw [restores_append, restores_writeCalls]
      rfl
    · have hk1 : 1 ≤ k := Nat.one_le_iff_ne_zero.mpr hk0
      have hkQ : (1 : ℚ) ≤ (k : ℚ) := by exact_mod_cast hk1
      have hkQ18 : (k : ℚ) ≤ 18 := by exact_mod_cast (by omega : k ≤ 18)
      have h1lt : s.scheme.adjustment_alpha + 1 / 20 < 1 := by
        push_cast at hα
        linarith
      have h0lt : 0 < s.scheme.adjustment_alpha + 1 / 20 := by
        push_cast at hα
        linarith
      have hstep := stepLoop_fade_cont s elev hex hd hl h0lt h1lt
      have ihs := ih
        { exiting := true
          scheme := { s.scheme with
            short_trans_delta := 1
            adjustment_alpha := s.scheme.adjustment_alpha + 1 / 20 }
          prevColor := some (tickSetting s.scheme elev)
          prevPeriod := s.scheme.get_period elev }
        rfl rfl hl (by push_cast at hα ⊢; linarith) hk1 (by omega)
      constructor
      · rw [List.replicate_succ, runContinual_cons_cont _ _ _ _ _ hstep]
        refine ⟨ihs.1.1, ?_⟩
        show restores (writeCalls s (tickSetting s.scheme elev) ++ _) = 1
        rw [restores_append, restores_writeCalls, Nat.zero_add]
        exact ihs.1.2
      · intro j hj1 hjk
        obtain ⟨j', rfl⟩ : ∃ j', j = j' + 1 := ⟨j - 1, by omega⟩
        rw [List.replicate_succ, runContinual_cons_cont _ _ _ _ _ hstep]
        by_cases hj0 : j' = 0
        · subst hj0
          exact trivial
        · exact ihs.2 j' (by omega) (by omega)

/-- C2: the claim asserts the shutdown transition is armed with
`short_trans_delta = -1`; in fact src/main.rs line 529 sets
`short_trans_delta = 1` (the fade runs `adjustment_alpha` upward toward
neutral, not downward). -/
theorem c2_counterexample :
    (contStateOf (stepLoop initState Event.signal)).scheme.short_trans_delta = 1 ∧
    ¬(contStateOf (stepLoop initState Event.signal)).scheme.short_trans_delta = -1 := by
  have h : (contStateOf (stepLoop initState Event.signal)).scheme.short_trans_delta = 1 := rfl
  refine ⟨h, ?_⟩
  rw [h]
  decide

/-- C2 (amended): a termination signal received while the loop is
running arms the shutdown short transition with `short_trans_delta = 1`,
`short_trans_len = 2` and `adjustment_alpha = 0.1` and marks the loop
exiting; on every subsequent tick `adjustment_alpha` increases by
exactly `0.05` until it reaches `1` or above (and is then clamped to `1`
with the delta cleared); the loop terminates on the tick that reaches
`1` — the 18th after the signal — performing exactly one restore call,
and is still running strictly before. -/
theorem c2_shutdown_fade :
    (∀ s : LoopState, s.exiting = false →
      stepLoop s Event.signal = StepOut.cont
        { s with
          exiting := true
          scheme := { s.scheme with
            short_trans_delta := 1
            short_trans_len := 2
            adjustment_alpha := 1 / 10 } } []) ∧
    (∀ sch : TransitionScheme, sch.short_trans_delta = 1 →
      sch.short_trans_len = 2 →
      (0 < sch.adjustment_alpha + 1 / 20 → sch.adjustment_alpha + 1 / 20 < 1 →
        sch.adjust_transition_alpha =
          { sch with
            short_trans_delta := 1
            adjustment_alpha := sch.adjustment_alpha + 1 / 20 }) ∧
      (1 ≤ sch.adjustment_alpha + 1 / 20 →
        sch.adjust_transition_alpha =
          { sch with short_trans_delta := 0, adjustment_alpha := 1 })) ∧
    (∀ (s : LoopState) (elev : ℚ), s.exiting = true →
      s.scheme.short_trans_delta = 1 → s.scheme.short_trans_len = 2 →
      s.scheme.adjustment_alpha = 1 / 10 →
      ((runContinual s (List.replicate 18 (Event.tick elev true))).1 =
          RunResult.finished ∧
        restores
          (runContinual s (List.replicate 18 (Event.tick elev true))).2 = 1) ∧
      (∀ k : ℕ, 1 ≤ k → k ≤ 17 →
        RunResult.isRunning
          (runContinual s (List.replicate k (Event.tick elev true))).1)) := by
  refine ⟨?_, ?_, ?_⟩
  · intro s hex
    simp only [stepLoop]
    rw [if_neg (by simp [hex])]
  · intro sch hd hl
    exact ⟨fun h0 h1 => adjust_fade_lt sch hd hl h0 h1,
      fun h1 => adjust_fade_ge sch hd hl h1⟩
  · intro s elev hex hd hl hα
    have h := fade_run elev 18 s hex hd hl (by rw [hα]; norm_num)
      (by norm_num) (by norm_num)
    exact ⟨h.1, fun k hk1 hk17 => h.2 k hk1 (by omega)⟩

/-- C2 witness: the arming part applied at the initial loop state, and
the termination part applied at a concretely armed state. -/
theorem c2_shutdown_fade_witness :
    stepLoop initState Event.signal = StepOut.cont
      { initState with
        exiting := true
        scheme := { initState.scheme with
          short_trans_delta := 1
          short_trans_len := 2
          adjustment_alpha := 1 / 10 } } [] ∧
    (runContinual
        { exiting := true
          scheme := { defaultScheme with
            short_trans_delta := 1
            short_trans_len := 2
            adjustment_alpha := 1 / 10 }
          prevColor := Option.none
          prevPeriod := Period.none }
        (List.replicate 18 (Event.tick 0 true))).1 = RunResult.finished :=
  ⟨c2_shutdown_fade.1 initState rfl,
    (c2_shutdown_fade.2.2 _ 0 rfl rfl rfl rfl).1.1⟩

end RedshiftRS
